import Mathlib

/-!
Verification development for the Suraksha scam-detector chat application
(`project1.tsx`). The source is a React component; the logic verified here
is the pure core: the response parser inside `checkMessageForScam`, the
error handling of that call, the message-list display sort, and the
send-message turn sequence with its in-flight guard. Strings are modelled
as lists of characters; the sort comparator key is modelled by an
order-isomorphic exact integer scaling; the fallible network call is
modelled by an explicit outcome datatype.
-/

namespace Suraksha

/-- Whitespace characters removed by JS string trim (the common ones:
space, tab, line feed, carriage return, form feed, vertical tab). -/
def isWS (c : Char) : Bool :=
  c = ' ' || c = '\t' || c = '\n' || c = '\r' || c = '\x0c' || c = '\x0b'

/-- Model of JS `String.prototype.trim`: drop whitespace at both ends. -/
def trimChars (s : List Char) : List Char :=
  ((s.dropWhile isWS).reverse.dropWhile isWS).reverse

/-- Model of JS `rawText.split('|')` (line 75): split a character list on
the bar character; the empty string splits to one empty segment. -/
def splitOnBar : List Char → List (List Char)
  | [] => [[]]
  | c :: rest =>
    if c = '|' then [] :: splitOnBar rest
    else
      match splitOnBar rest with
      | [] => [[c]]
      | seg :: segs => (c :: seg) :: segs

/-- Value of a hexadecimal digit character, `none` for non-digits, stated
on character codes (48-57 digits, 97-102 lowercase, 65-70 uppercase).
Used with a radix bound so that for radix 10 only decimal digits count. -/
def hexVal (c : Char) : Option Nat :=
  if 48 ≤ c.toNat ∧ c.toNat ≤ 57 then some (c.toNat - 48)
  else if 97 ≤ c.toNat ∧ c.toNat ≤ 102 then some (c.toNat - 87)
  else if 65 ≤ c.toNat ∧ c.toNat ≤ 70 then some (c.toNat - 55)
  else none

/-- Accumulate the value of the longest prefix of digits valid in the
given radix, as JS `parseInt` does after stripping whitespace and sign. -/
def digitsVal (radix : Nat) : List Char → Nat → Nat
  | [], acc => acc
  | c :: rest, acc =>
    match hexVal c with
    | some v => if v < radix then digitsVal radix rest (acc * radix + v) else acc
    | none => acc

/-- Whether the list starts with at least one digit valid in the radix
(JS `parseInt` returns NaN otherwise). -/
def hasDigit (radix : Nat) : List Char → Bool
  | [] => false
  | c :: _ =>
    match hexVal c with
    | some v => v < radix
    | none => false

/-- Model of JS `parseInt(s)` with no radix argument (line 79): strip
leading whitespace, then an optional sign, then an optional `0x`/`0X`
prefix switching to base 16; parse the longest valid digit prefix;
`none` models NaN (returned when no digit follows). -/
def parseIntJS (s : List Char) : Option Int :=
  let t := s.dropWhile isWS
  let neg : Bool := decide (t.headD ' ' = '-')
  let afterSign : List Char :=
    if t.headD ' ' = '-' ∨ t.headD ' ' = '+' then t.tail else t
  let radix : Nat :=
    if afterSign.take 2 = ['0', 'x'] ∨ afterSign.take 2 = ['0', 'X'] then 16 else 10
  let body : List Char :=
    if afterSign.take 2 = ['0', 'x'] ∨ afterSign.take 2 = ['0', 'X'] then afterSign.drop 2
    else afterSign
  if hasDigit radix body then
    let v : Int := Int.ofNat (digitsVal radix body 0)
    some (if neg then -v else v)
  else
    none

/-- The result record of `checkMessageForScam` (lines 83-99). -/
structure Classification where
  isScam : Bool
  scamLevel : List Char
  scamPercentage : Int
  scamWarning : List Char
  deriving Repr, DecidableEq

/-- The three valid level tokens (line 82). -/
def strSAFE : List Char := ("SAFE").data

def strPOTENTIAL : List Char := ("POTENTIAL_SCAM").data

def strHIGHLY : List Char := ("HIGHLY_LIKELY_SCAM").data

def strUNKNOWN : List Char := ("UNKNOWN").data

def strERROR : List Char := ("ERROR").data

/-- Fallback explanation when the model omits one (line 87). -/
def noReasonMsg : List Char := ("No specific reason provided.").data

/-- The UNKNOWN fallback result (line 92). -/
def unknownResult : Classification :=
  { isScam := false
    scamLevel := strUNKNOWN
    scamPercentage := 0
    scamWarning := ("Could not determine scam status from AI response.").data }

/-- Parsing of the raw model text inside `checkMessageForScam`
(lines 75-92): split on the bar, and with at least 3 segments read the
trimmed level, the integer-parsed confidence and the trimmed third
segment; any validation failure falls back to `unknownResult`. -/
def parseResponse (rawText : List Char) : Classification :=
  let parts := splitOnBar rawText
  if 3 ≤ parts.length then
    let level := trimChars (parts.getD 0 [])
    let percentage := parseIntJS (trimChars (parts.getD 1 []))
    let explanation := trimChars (parts.getD 2 [])
    if (level = strSAFE ∨ level = strPOTENTIAL ∨ level = strHIGHLY) ∧ percentage.isSome then
      { isScam := decide (level ≠ strSAFE)
        scamLevel := level
        scamPercentage := percentage.getD 0
        scamWarning := if explanation = [] then noReasonMsg else explanation }
    else unknownResult
  else unknownResult

/-- Outcome of the single fetch to the completion endpoint, abstracting
the transport layer: a non-ok HTTP status with its status text and the
optional error message from the body (line 65), a well-formed body with
no candidates (line 95), a well-formed body carrying raw text (line 74),
or a thrown transport exception with its message (line 97). -/
inductive FetchOutcome where
  | httpError (statusText : List Char) (errMsg : Option (List Char))
  | noCandidates
  | ok (rawText : List Char)
  | exn (msg : List Char)
  deriving Repr, DecidableEq

/-- Message of the error thrown on a non-ok HTTP status (line 65). -/
def httpErrMsg (statusText : List Char) (errMsg : Option (List Char)) : List Char :=
  ("AI API request failed: ").data ++ statusText ++ (" - ").data ++
    errMsg.getD (("Unknown AI error").data)

/-- Message of the error thrown when the body has no candidates (line 95). -/
def noCandidatesMsg : List Char :=
  ("Could not understand the AI response. Unexpected format.").data

/-- Prefix of every explanation produced by the catch block (line 99). -/
def errWarnHead : List Char := ("Error during analysis: ").data

/-- The ERROR classification built in the catch block (line 99). -/
def errorResult (msg : List Char) : Classification :=
  { isScam := false
    scamLevel := strERROR
    scamPercentage := 0
    scamWarning := errWarnHead ++ msg }

/-- Model of `checkMessageForScam` (lines 55-101) as a function of the
fetch outcome: errors thrown on a bad status or a candidate-less body are
caught by the surrounding catch, as is a transport exception; a
well-formed response is delegated to the parser. -/
def checkMessageForScam : FetchOutcome → Classification
  | .httpError st m => errorResult (httpErrMsg st m)
  | .noCandidates => errorResult noCandidatesMsg
  | .ok raw => parseResponse raw
  | .exn m => errorResult m

/-- The fetch outcomes on which the try block throws. -/
def FetchOutcome.isFailure : FetchOutcome → Prop
  | .ok _ => False
  | _ => True

instance (f : FetchOutcome) : Decidable f.isFailure := by
  cases f <;> simp [FetchOutcome.isFailure] <;> infer_instance

/-- Firestore timestamp as read back in a snapshot (fields `seconds` and
`nanoseconds` used by the comparator at lines 249-250). -/
structure Timestamp where
  seconds : Int
  nanoseconds : Int
  deriving Repr, DecidableEq

/-- Sender enum of the `Message` interface (line 156). -/
inductive Sender where
  | user
  | ai
  deriving Repr, DecidableEq

/-- A message as delivered by the snapshot subscription (lines 153-162);
`timestamp` is absent while the server timestamp is still pending. -/
structure Message where
  id : Nat
  text : List Char
  sender : Sender
  timestamp : Option Timestamp
  deriving Repr, DecidableEq

/-- Sort key of the display comparator (lines 249-250): a present
timestamp maps to seconds plus nanoseconds over 1e9, an absent one to 0.
The key in the code is the rational seconds + nanoseconds/1e9; this model
stores that value scaled by 1e9 as an exact integer (seconds * 1e9 +
nanoseconds), which is order-isomorphic to it: scaling by the positive
constant 1e9 preserves the comparator sign for every pair of keys. -/
def sortKey (t : Option Timestamp) : Int :=
  match t with
  | none => 0
  | some ts => ts.seconds * 1000000000 + ts.nanoseconds

/-- Comparator order of the display sort (line 251): ascending `sortKey`. -/
def msgLe (a b : Message) : Prop := sortKey a.timestamp ≤ sortKey b.timestamp

instance : DecidableRel msgLe := fun _ _ => by
  unfold msgLe
  infer_instance

instance : IsTotal Message msgLe :=
  ⟨fun a b => le_total (sortKey a.timestamp) (sortKey b.timestamp)⟩

instance : IsTrans Message msgLe := ⟨fun _ _ _ h h' => le_trans h h'⟩

/-- Model of `sortedMessages` (lines 248-252): JS `Array.prototype.sort`
is stable and, for the consistent comparator `timeA - timeB`, produces
the unique stable order ascending in `sortKey`; insertion sort with `≤`
on keys is exactly that order. -/
def sortedMessages (messages : List Message) : List Message :=
  List.insertionSort msgLe messages

/-- Record draft as handed to `addDoc` by `handleSendMessage` (lines
393-418), before the log assigns an id and resolves the timestamp. -/
structure Draft where
  text : List Char
  sender : Sender
  isScam : Option Bool
  scamLevel : Option (List Char)
  scamPercentage : Option Int
  scamWarning : Option (List Char)
  deriving Repr, DecidableEq

/-- The user record appended first (lines 393-397). -/
def userDraft (text : List Char) : Draft :=
  { text := text, sender := .user, isScam := none, scamLevel := none
    scamPercentage := none, scamWarning := none }

/-- Fixed filler text of the placeholder AI record (line 401). -/
def placeholderText : List Char :=
  ("I").data ++ [Char.ofNat 39] ++
    ("ve analyzed this message for potential scam indicators.").data

/-- The placeholder AI record appended second (lines 400-404); it carries
no classification fields. -/
def placeholderDraft : Draft :=
  { text := placeholderText, sender := .ai, isScam := none, scamLevel := none
    scamPercentage := none, scamWarning := none }

/-- The final AI record appended third (lines 410-418), carrying the
classification fields. -/
def finalDraft (c : Classification) : Draft :=
  { text := ("Analysis complete.").data
    sender := .ai
    isScam := some c.isScam
    scamLevel := some c.scamLevel
    scamPercentage := some c.scamPercentage
    scamWarning := some c.scamWarning }

/-- Error message set when an append throws (line 422). -/
def sendFailMsg : List Char := ("Failed to send message. Please try again.").data

/-- The component state `handleSendMessage` reads and writes: the
identity, the in-flight flag, the per-identity append-only log (as the
sequence of appended drafts) and the error banner text. -/
structure ChatState where
  userId : Option (List Char)
  isSendingMessage : Bool
  log : List Draft
  error : List Char
  deriving Repr, DecidableEq

/-- Model of `handleSendMessage` (lines 387-426) over one submission,
parameterised by the success of each of the three `addDoc` calls and by
the fetch outcome of the classification call. The guard at line 388
rejects the submission when no identity is set or a turn is in flight;
otherwise the three appends run in order, a failing append stops the
sequence and sets the error banner (already-appended records remain),
and the finally block clears the in-flight flag, so the flag is back to
its input value in every returned state. -/
def handleSendMessage (st : ChatState) (text : List Char)
    (append1Ok append2Ok append3Ok : Bool) (f : FetchOutcome) : ChatState :=
  if st.userId = none ∨ st.isSendingMessage then st
  else if append1Ok = false then
    { st with error := sendFailMsg }
  else if append2Ok = false then
    { st with log := st.log ++ [userDraft text], error := sendFailMsg }
  else if append3Ok = false then
    { st with log := st.log ++ [userDraft text, placeholderDraft], error := sendFailMsg }
  else
    { st with log := st.log ++
        [userDraft text, placeholderDraft, finalDraft (checkMessageForScam f)] }

/-- Value of a list of decimal digit characters read left to right. -/
def decimalValue (ds : List Char) : Nat :=
  ds.foldl (fun acc c => acc * 10 + (c.toNat - 48)) 0

/-- Concrete message with a pending (null) timestamp, arriving first. -/
def msgNullA : Message := { id := 1, text := ['a'], sender := .user, timestamp := none }

/-- Concrete message with timestamp 5 seconds. -/
def msgFive : Message := { id := 2, text := ['b'], sender := .ai, timestamp := some ⟨5, 0⟩ }

/-- Concrete message with timestamp 2 seconds. -/
def msgTwo : Message := { id := 3, text := ['c'], sender := .user, timestamp := some ⟨2, 0⟩ }

/-- Concrete message with a pending (null) timestamp, arriving last. -/
def msgNullB : Message := { id := 4, text := ['d'], sender := .ai, timestamp := none }

/-- The snapshot of the ordering example in the spec: `createdAt` values
null, 5, 2, null in arrival order. -/
def exMessages : List Message := [msgNullA, msgFive, msgTwo, msgNullB]

/-- Concrete idle chat state used to exercise `handleSendMessage`. -/
def exIdleState : ChatState :=
  { userId := some ['u'], isSendingMessage := false, log := [], error := [] }

/-- Concrete chat state with a turn in flight. -/
def exBusyState : ChatState :=
  { userId := some ['u'], isSendingMessage := true, log := [], error := [] }

example : parseResponse (("SAFE|8|x").data) =
    { isScam := false, scamLevel := strSAFE, scamPercentage := 8,
      scamWarning := ['x'] } := by decide

example : parseResponse (("MAYBE|10|x").data) = unknownResult := by decide

example : parseIntJS (("0x10").data) = some 16 := by decide

example : parseIntJS (("12abc").data) = some 12 := by decide

example : parseIntJS (("abc").data) = none := by decide

theorem splitOnBar_ne_nil (s : List Char) : splitOnBar s ≠ [] := by
  cases s with
  | nil => simp [splitOnBar]
  | cons c rest =>
    simp only [splitOnBar]
    split
    · simp
    · split <;> simp

theorem splitOnBar_length (s : List Char) :
    (splitOnBar s).length = s.count '|' + 1 := by
  induction s with
  | nil => simp [splitOnBar]
  | cons c rest ih =>
    by_cases hc : c = '|'
    · subst hc
      simp [splitOnBar, List.count_cons, ih]
    · simp only [splitOnBar, if_neg hc]
      cases h : splitOnBar rest with
      | nil => exact absurd h (splitOnBar_ne_nil rest)
      | cons seg segs =>
        rw [h] at ih
        simp only [List.length_cons] at ih ⊢
        simp [List.count_cons, hc]
        omega

theorem splitOnBar_append (l rest : List Char) (hl : '|' ∉ l) :
    splitOnBar (l ++ '|' :: rest) = l :: splitOnBar rest := by
  induction l with
  | nil => simp [splitOnBar]
  | cons c cs ih =>
    have hc : ¬ c = '|' := fun h => hl (by rw [h]; exact List.mem_cons_self _ _)
    have hcs : '|' ∉ cs := fun h => hl (List.mem_cons_of_mem _ h)
    simp only [List.cons_append, splitOnBar, if_neg hc, List.append_eq, ih hcs]

/-- C3: for every raw model text containing fewer than 2 bar separators,
the parse returns the UNKNOWN result — level UNKNOWN, confidence 0,
isScam false, with the fixed could-not-determine explanation — and, being
a total function, never propagates an error. -/
theorem parse_unknown_of_few_bars (raw : List Char) (h : raw.count '|' < 2) :
    parseResponse raw = unknownResult ∧
      unknownResult.scamLevel = strUNKNOWN ∧
      unknownResult.scamPercentage = 0 ∧
      unknownResult.isScam = false ∧
      unknownResult.scamWarning =
        ("Could not determine scam status from AI response.").data := by
  have hlen : ¬ 3 ≤ (splitOnBar raw).length := by
    rw [splitOnBar_length]
    omega
  refine ⟨?_, rfl, rfl, rfl, rfl⟩
  unfold parseResponse
  simp only [if_neg hlen]

theorem parse_unknown_of_few_bars_witness :
    (("SAFE").data).count '|' < 2 ∧ parseResponse (("SAFE").data) = unknownResult :=
  ⟨by decide, (parse_unknown_of_few_bars (("SAFE").data) (by decide)).1⟩

/-- C6: for every raw model text with 3 or more segments, if the trimmed
first segment is not one of the three valid level tokens, or the trimmed
second segment does not parse as an integer, the parse returns the same
UNKNOWN result as the too-few-segments case. -/
theorem parse_unknown_of_invalid (raw : List Char)
    (hlen : 3 ≤ (splitOnBar raw).length)
    (h : ¬ (trimChars ((splitOnBar raw).getD 0 []) = strSAFE ∨
            trimChars ((splitOnBar raw).getD 0 []) = strPOTENTIAL ∨
            trimChars ((splitOnBar raw).getD 0 []) = strHIGHLY) ∨
         parseIntJS (trimChars ((splitOnBar raw).getD 1 [])) = none) :
    parseResponse raw = unknownResult := by
  unfold parseResponse
  simp only [if_pos hlen]
  rw [if_neg]
  rintro ⟨hv, hs⟩
  rcases h with h | h
  · exact h hv
  · rw [h] at hs
    exact Bool.false_ne_true hs

theorem parse_unknown_of_invalid_witness :
    parseResponse (("MAYBE|10|x").data) = unknownResult :=
  parse_unknown_of_invalid (("MAYBE|10|x").data) (by decide) (Or.inl (by decide))

/-- C5: for every raw model text assembled from a valid level segment, an
integer-parseable confidence segment and any remainder, the parsed
confidence is the `parseInt` value unchanged — no clamping to 0..100. -/
theorem confidence_unclamped (lvl conf expl : List Char) (n : Int)
    (hlvl : '|' ∉ lvl) (hconf : '|' ∉ conf)
    (hvalid : trimChars lvl = strSAFE ∨ trimChars lvl = strPOTENTIAL ∨
      trimChars lvl = strHIGHLY)
    (hn : parseIntJS (trimChars conf) = some n) :
    (parseResponse (lvl ++ '|' :: (conf ++ '|' :: expl))).scamPercentage = n ∧
    (parseResponse (lvl ++ '|' :: (conf ++ '|' :: expl))).scamLevel = trimChars lvl ∧
    (parseResponse (lvl ++ '|' :: (conf ++ '|' :: expl))).isScam =
      decide (trimChars lvl ≠ strSAFE) := by
  have hsplit : splitOnBar (lvl ++ '|' :: (conf ++ '|' :: expl)) =
      lvl :: conf :: splitOnBar expl := by
    rw [splitOnBar_append _ _ hlvl, splitOnBar_append _ _ hconf]
  have hpos : 0 < (splitOnBar expl).length :=
    List.length_pos.mpr (splitOnBar_ne_nil expl)
  have hlen : 3 ≤ (lvl :: conf :: splitOnBar expl).length := by
    simp only [List.length_cons]
    omega
  unfold parseResponse
  rw [hsplit]
  simp only [List.getD_cons_zero, List.getD_cons_succ, hn, if_pos hlen]
  rw [if_pos ⟨hvalid, rfl⟩]
  exact ⟨rfl, rfl, rfl⟩

theorem confidence_unclamped_witness :
    (parseResponse ((("SAFE").data) ++ '|' :: ((("150").data) ++ '|' :: (("ok").data)))).scamPercentage = 150 ∧
    (parseResponse ((("SAFE").data) ++ '|' :: ((("150").data) ++ '|' :: (("ok").data)))).scamLevel = trimChars (("SAFE").data) ∧
    (parseResponse ((("SAFE").data) ++ '|' :: ((("150").data) ++ '|' :: (("ok").data)))).isScam =
      decide (trimChars (("SAFE").data) ≠ strSAFE) :=
  confidence_unclamped (("SAFE").data) (("150").data) (("ok").data) 150
    (by decide) (by decide) (Or.inl (by decide)) (by decide)

/-- C2 counterexample: on the raw text with a bar inside the intended
explanation, the parse keeps only the third split segment, not the
remainder after the first two delimiters. -/
theorem explanation_third_segment_cex :
    (parseResponse (("SAFE|8|a|b").data)).scamWarning = ['a'] ∧
    (parseResponse (("SAFE|8|a|b").data)).scamWarning ≠ ['a', '|', 'b'] := by
  decide

/-- C2 (amended): for every raw model text with 3 or more segments and
valid level and confidence, the explanation is the trimmed third split
segment only (falling back to the fixed placeholder when empty); any text
after a further bar is dropped, not kept in the explanation. -/
theorem explanation_is_third_segment (lvl conf e rest : List Char) (n : Int)
    (hlvl : '|' ∉ lvl) (hconf : '|' ∉ conf) (he : '|' ∉ e)
    (hvalid : trimChars lvl = strSAFE ∨ trimChars lvl = strPOTENTIAL ∨
      trimChars lvl = strHIGHLY)
    (hn : parseIntJS (trimChars conf) = some n) :
    (parseResponse (lvl ++ '|' :: (conf ++ '|' :: (e ++ '|' :: rest)))).scamWarning =
      (if trimChars e = [] then noReasonMsg else trimChars e) := by
  have hsplit : splitOnBar (lvl ++ '|' :: (conf ++ '|' :: (e ++ '|' :: rest))) =
      lvl :: conf :: e :: splitOnBar rest := by
    rw [splitOnBar_append _ _ hlvl, splitOnBar_append _ _ hconf,
      splitOnBar_append _ _ he]
  have hlen : 3 ≤ (lvl :: conf :: e :: splitOnBar rest).length := by
    simp only [List.length_cons]
    omega
  unfold parseResponse
  rw [hsplit]
  simp only [List.getD_cons_zero, List.getD_cons_succ, hn, if_pos hlen]
  rw [if_pos ⟨hvalid, rfl⟩]

theorem explanation_is_third_segment_witness :
    (parseResponse ((("SAFE").data) ++ '|' :: ((("8").data) ++ '|' :: (['a'] ++ '|' :: ['b'])))).scamWarning =
      (if trimChars ['a'] = [] then noReasonMsg else trimChars ['a']) :=
  explanation_is_third_segment (("SAFE").data) (("8").data) ['a'] ['b'] 8
    (by decide) (by decide) (by decide) (Or.inl (by decide)) (by decide)

theorem parseResponse_cases (raw : List Char) :
    parseResponse raw = unknownResult ∨
      ((parseResponse raw).scamLevel = trimChars ((splitOnBar raw).getD 0 []) ∧
       (trimChars ((splitOnBar raw).getD 0 []) = strSAFE ∨
        trimChars ((splitOnBar raw).getD 0 []) = strPOTENTIAL ∨
        trimChars ((splitOnBar raw).getD 0 []) = strHIGHLY) ∧
       (parseResponse raw).isScam =
         decide (trimChars ((splitOnBar raw).getD 0 []) ≠ strSAFE)) := by
  by_cases hlen : 3 ≤ (splitOnBar raw).length
  · by_cases hc : (trimChars ((splitOnBar raw).getD 0 []) = strSAFE ∨
        trimChars ((splitOnBar raw).getD 0 []) = strPOTENTIAL ∨
        trimChars ((splitOnBar raw).getD 0 []) = strHIGHLY) ∧
        (parseIntJS (trimChars ((splitOnBar raw).getD 1 []))).isSome = true
    · right
      refine ⟨?_, hc.1, ?_⟩ <;>
        · unfold parseResponse
          simp only [if_pos hlen, if_pos hc]
    · left
      unfold parseResponse
      simp only [if_pos hlen]
      rw [if_neg hc]
  · left
    unfold parseResponse
    simp only [if_neg hlen]

/-- C4: for every classification produced by the classifier call (and so
by parsing), isScam equals (level different from SAFE) whenever the level
is one of the three valid tokens, and isScam is false whenever the level
is UNKNOWN or ERROR; the three sample inputs parse to isScam false, true,
true with confidence 8, 35, 75 and explanations x, y, z. -/
theorem isScam_matches_level (f : FetchOutcome) :
    (((checkMessageForScam f).scamLevel = strSAFE ∨
      (checkMessageForScam f).scamLevel = strPOTENTIAL ∨
      (checkMessageForScam f).scamLevel = strHIGHLY) →
      (checkMessageForScam f).isScam =
        decide ((checkMessageForScam f).scamLevel ≠ strSAFE)) ∧
    (((checkMessageForScam f).scamLevel = strUNKNOWN ∨
      (checkMessageForScam f).scamLevel = strERROR) →
      (checkMessageForScam f).isScam = false) ∧
    parseResponse (("SAFE|8|x").data) = ⟨false, strSAFE, 8, ['x']⟩ ∧
    parseResponse (("POTENTIAL_SCAM|35|y").data) = ⟨true, strPOTENTIAL, 35, ['y']⟩ ∧
    parseResponse (("HIGHLY_LIKELY_SCAM|75|z").data) = ⟨true, strHIGHLY, 75, ['z']⟩ := by
  refine ⟨?_, ?_, by decide, by decide, by decide⟩
  · cases f with
    | httpError st m =>
      intro hv
      simp only [checkMessageForScam, errorResult] at hv
      rcases hv with h1 | h1 | h1 <;> exact absurd h1 (by decide)
    | noCandidates =>
      intro hv
      simp only [checkMessageForScam, errorResult] at hv
      rcases hv with h1 | h1 | h1 <;> exact absurd h1 (by decide)
    | exn m =>
      intro hv
      simp only [checkMessageForScam, errorResult] at hv
      rcases hv with h1 | h1 | h1 <;> exact absurd h1 (by decide)
    | ok raw =>
      simp only [checkMessageForScam]
      rcases parseResponse_cases raw with h | ⟨hl, hv, hs⟩
      · intro hbad
        rw [h] at hbad
        rcases hbad with h1 | h1 | h1 <;> exact absurd h1 (by decide)
      · intro hbad
        rw [hs]
        simp only [hl]
  · cases f with
    | httpError st m =>
      intro hv
      rfl
    | noCandidates =>
      intro hv
      rfl
    | exn m =>
      intro hv
      rfl
    | ok raw =>
      simp only [checkMessageForScam]
      rcases parseResponse_cases raw with h | ⟨hl, hv, hs⟩
      · rw [h]
        intro hbad
        rfl
      · intro hbad
        rw [hl] at hbad
        rcases hv with h1 | h1 | h1 <;> rcases hbad with h2 | h2 <;>
          (rw [h1] at h2; exact absurd h2 (by decide))

theorem isScam_matches_level_witness :
    (checkMessageForScam (.ok (("POTENTIAL_SCAM|35|y").data))).isScam =
      decide ((checkMessageForScam (.ok (("POTENTIAL_SCAM|35|y").data))).scamLevel ≠ strSAFE) :=
  (isScam_matches_level (.ok (("POTENTIAL_SCAM|35|y").data))).1 (by decide)

/-- C7: every failure of the classification call — non-ok HTTP status,
well-formed response with no candidates, or a transport exception — is
returned (not thrown) as a classification with level ERROR, confidence 0,
isScam false, and an explanation beginning with the error prefix. -/
theorem classify_failure_returns_error (f : FetchOutcome) (h : f.isFailure) :
    (checkMessageForScam f).scamLevel = strERROR ∧
    (checkMessageForScam f).scamPercentage = 0 ∧
    (checkMessageForScam f).isScam = false ∧
    ∃ rest, (checkMessageForScam f).scamWarning = errWarnHead ++ rest := by
  cases f with
  | ok raw => exact absurd h (by simp [FetchOutcome.isFailure])
  | httpError st m => exact ⟨rfl, rfl, rfl, ⟨httpErrMsg st m, rfl⟩⟩
  | noCandidates => exact ⟨rfl, rfl, rfl, ⟨noCandidatesMsg, rfl⟩⟩
  | exn m => exact ⟨rfl, rfl, rfl, ⟨m, rfl⟩⟩

theorem classify_failure_returns_error_witness :
    (checkMessageForScam .noCandidates).scamLevel = strERROR ∧
    (checkMessageForScam .noCandidates).scamPercentage = 0 ∧
    (checkMessageForScam .noCandidates).isScam = false ∧
    ∃ rest, (checkMessageForScam .noCandidates).scamWarning = errWarnHead ++ rest :=
  classify_failure_returns_error .noCandidates (by decide)

/-- C8: for every accepted submission whose three log appends succeed,
exactly three records are appended, in order USER with the raw text, the
AI placeholder with the fixed filler and no classification fields, and
the AI final carrying the classification — even when the classification
call fails, in which case the final record carries level ERROR. -/
theorem turn_appends_three_records (st : ChatState) (text : List Char)
    (f : FetchOutcome) (hid : st.userId ≠ none)
    (hfree : st.isSendingMessage = false) :
    (handleSendMessage st text true true true f).log =
      st.log ++ [userDraft text, placeholderDraft, finalDraft (checkMessageForScam f)] ∧
    (userDraft text).sender = .user ∧
    (userDraft text).text = text ∧
    placeholderDraft.sender = .ai ∧
    placeholderDraft.isScam = none ∧
    placeholderDraft.scamLevel = none ∧
    (finalDraft (checkMessageForScam f)).sender = .ai ∧
    (finalDraft (checkMessageForScam f)).scamLevel =
      some (checkMessageForScam f).scamLevel ∧
    (f.isFailure → (checkMessageForScam f).scamLevel = strERROR) := by
  have hguard : ¬ (st.userId = none ∨ st.isSendingMessage = true) := by
    rintro (h | h)
    · exact hid h
    · rw [hfree] at h
      exact Bool.false_ne_true h
  refine ⟨?_, rfl, rfl, rfl, rfl, rfl, rfl, rfl, ?_⟩
  · unfold handleSendMessage
    rw [if_neg hguard]
    simp
  · intro hf
    cases f with
    | ok raw => exact absurd hf (by simp [FetchOutcome.isFailure])
    | httpError st2 m => rfl
    | noCandidates => rfl
    | exn m => rfl

theorem turn_appends_three_records_witness :
    (handleSendMessage exIdleState ['h'] true true true (.exn ['x'])).log =
      exIdleState.log ++
        [userDraft ['h'], placeholderDraft,
          finalDraft (checkMessageForScam (.exn ['x']))] ∧
    (userDraft ['h']).sender = .user ∧
    (userDraft ['h']).text = ['h'] ∧
    placeholderDraft.sender = .ai ∧
    placeholderDraft.isScam = none ∧
    placeholderDraft.scamLevel = none ∧
    (finalDraft (checkMessageForScam (.exn ['x']))).sender = .ai ∧
    (finalDraft (checkMessageForScam (.exn ['x']))).scamLevel =
      some (checkMessageForScam (.exn ['x'])).scamLevel ∧
    ((FetchOutcome.exn ['x']).isFailure →
      (checkMessageForScam (.exn ['x'])).scamLevel = strERROR) :=
  turn_appends_three_records exIdleState ['h'] (.exn ['x']) (by decide) rfl

/-- C9: while a turn is in flight (the in-flight flag is set), a second
submission is rejected with no effect: the state is returned unchanged,
so no records are appended and nothing interleaves with the in-flight
append sequence of the in-flight turn. -/
theorem inflight_submission_rejected (st : ChatState) (text : List Char)
    (a1 a2 a3 : Bool) (f : FetchOutcome) (h : st.isSendingMessage = true) :
    handleSendMessage st text a1 a2 a3 f = st ∧
    (handleSendMessage st text a1 a2 a3 f).log = st.log := by
  have heq : handleSendMessage st text a1 a2 a3 f = st := by
    unfold handleSendMessage
    rw [if_pos (Or.inr h)]
  exact ⟨heq, by rw [heq]⟩

theorem inflight_submission_rejected_witness :
    handleSendMessage exBusyState ['h'] true true true .noCandidates = exBusyState ∧
    (handleSendMessage exBusyState ['h'] true true true .noCandidates).log =
      exBusyState.log :=
  inflight_submission_rejected exBusyState ['h'] true true true .noCandidates rfl

/-- C1 counterexample: on createdAt values null, 5, 2, null the display
sort places the two null-timestamp records first (they are keyed 0), not
after the records with timestamps 2 and 5: the head of the sorted view is
a null-timestamp record. -/
theorem sort_nulls_first_cex :
    sortedMessages exMessages = [msgNullA, msgNullB, msgTwo, msgFive] ∧
    (sortedMessages exMessages).getD 0 msgTwo ≠ msgTwo ∧
    (sortedMessages exMessages).getD 0 msgTwo ≠ msgFive ∧
    ((sortedMessages exMessages).getD 0 msgTwo).timestamp = none := by
  decide

/-- C1 (amended): the display sort orders records by ascending sort key,
where a null/absent timestamp is keyed 0 — so null-timestamp records sort
first among records with positive timestamps, not last — the output is a
permutation of the input, and on createdAt values null, 5, 2, null the
sorted view is null, null, 2, 5 with the null records kept in arrival
order and 2 before 5. -/
theorem sort_ascending_null_keyed_zero (l : List Message) :
    List.Sorted msgLe (sortedMessages l) ∧
    (sortedMessages l).Perm l ∧
    sortKey none = 0 ∧
    sortedMessages exMessages = [msgNullA, msgNullB, msgTwo, msgFive] :=
  ⟨List.sorted_insertionSort msgLe l, List.perm_insertionSort msgLe l, rfl, by decide⟩

theorem hexVal_digit (c : Char) (h : 48 ≤ c.toNat ∧ c.toNat ≤ 57) :
    hexVal c = some (c.toNat - 48) := by
  unfold hexVal
  rw [if_pos h]

theorem hexVal_lt_ten (c : Char) (v : Nat) (h : hexVal c = some v) (hv : v < 10) :
    48 ≤ c.toNat ∧ c.toNat ≤ 57 := by
  unfold hexVal at h
  split_ifs at h with h1 h2 h3
  · exact h1
  · injection h with h4
    omega
  · injection h with h4
    omega

theorem isWS_digit (c : Char) (h : 48 ≤ c.toNat ∧ c.toNat ≤ 57) :
    isWS c = false := by
  unfold isWS
  simp only [Bool.or_eq_false_iff, decide_eq_false_iff_not]
  refine ⟨⟨⟨⟨⟨?_, ?_⟩, ?_⟩, ?_⟩, ?_⟩, ?_⟩ <;>
    (intro he; subst he; exact absurd h (by decide))

theorem digit_not_sign (c : Char) (h : 48 ≤ c.toNat ∧ c.toNat ≤ 57) :
    ¬ (c = '-' ∨ c = '+') := by
  rintro (he | he) <;> (subst he; exact absurd h (by decide))

theorem digitsVal_stops (tail : List Char)
    (ht : ∀ c ∈ tail.take 1, ¬ (48 ≤ c.toNat ∧ c.toNat ≤ 57)) :
    ∀ (ds : List Char) (acc : Nat), (∀ c ∈ ds, 48 ≤ c.toNat ∧ c.toNat ≤ 57) →
      digitsVal 10 (ds ++ tail) acc =
        ds.foldl (fun a c => a * 10 + (c.toNat - 48)) acc := by
  intro ds
  induction ds with
  | nil =>
    intro acc hds
    simp only [List.nil_append, List.foldl_nil]
    cases tail with
    | nil => rfl
    | cons c t =>
      have hc := ht c (by simp)
      cases h : hexVal c with
      | none => simp [digitsVal, h]
      | some v =>
        simp only [digitsVal, h]
        rw [if_neg (fun hv => hc (hexVal_lt_ten c v h hv))]
  | cons d ds ih =>
    intro acc hds
    have hd := hds d (List.mem_cons_self _ _)
    simp only [List.cons_append, digitsVal, hexVal_digit d hd, List.foldl_cons]
    rw [if_pos (by omega)]
    exact ih (acc * 10 + (d.toNat - 48)) (fun c hc => hds c (List.mem_cons_of_mem _ hc))

/-- C10 counterexample: the second segment 0x10 begins with the decimal
digit 0 followed by non-digit characters, yet `parseInt` applies its
hexadecimal-prefix rule, so the parse returns confidence 16, not the
decimal numeric prefix 0. -/
theorem parseInt_hex_rule_cex :
    (parseResponse (("SAFE|0x10|x").data)).scamPercentage = 16 ∧
    (parseResponse (("SAFE|0x10|x").data)).scamPercentage ≠ 0 := by
  decide

/-- C10 (amended): for every segment built from an optional sign, at
least one decimal digit and a remainder not starting with a digit, the
integer check succeeds and the parsed value is the signed decimal prefix
— provided the part after the sign does not begin with the 0x/0X prefix,
which `parseInt` instead parses base-16; concretely, SAFE|12abc|x parses
with confidence 12. -/
theorem parseIntJS_decimal_lead (sgn ds tail : List Char)
    (hsgn : sgn = [] ∨ sgn = ['+'] ∨ sgn = ['-'])
    (hds : ds ≠ []) (hdig : ∀ c ∈ ds, 48 ≤ c.toNat ∧ c.toNat ≤ 57)
    (htail : ∀ c ∈ tail.take 1, ¬ (48 ≤ c.toNat ∧ c.toNat ≤ 57))
    (hhex : (ds ++ tail).take 2 ≠ ['0', 'x'] ∧ (ds ++ tail).take 2 ≠ ['0', 'X']) :
    parseIntJS (sgn ++ (ds ++ tail)) =
      some (if sgn = ['-'] then -(decimalValue ds : Int) else (decimalValue ds : Int)) ∧
    (parseResponse (("SAFE|12abc|x").data)).scamPercentage = 12 := by
  refine ⟨?_, by decide⟩
  obtain ⟨d, ds', rfl⟩ : ∃ d ds', ds = d :: ds' := by
    cases ds with
    | nil => exact absurd rfl hds
    | cons d ds' => exact ⟨d, ds', rfl⟩
  have hd : 48 ≤ d.toNat ∧ d.toNat ≤ 57 := hdig d (List.mem_cons_self _ _)
  have hws : isWS d = false := isWS_digit d hd
  have hsign : ¬ (d = '-' ∨ d = '+') := digit_not_sign d hd
  have hnd : ¬ (d = '-') := fun he => hsign (Or.inl he)
  have hx : ¬ ((d :: (ds' ++ tail)).take 2 = ['0', 'x'] ∨
      (d :: (ds' ++ tail)).take 2 = ['0', 'X']) := by
    rintro (h | h)
    · exact hhex.1 h
    · exact hhex.2 h
  have hhd : hasDigit 10 (d :: (ds' ++ tail)) = true := by
    simp only [hasDigit, hexVal_digit d hd]
    exact decide_eq_true (by omega)
  have hval : digitsVal 10 (d :: (ds' ++ tail)) 0 = decimalValue (d :: ds') := by
    have h := digitsVal_stops tail htail (d :: ds') 0 hdig
    simpa [decimalValue] using h
  rcases hsgn with rfl | rfl | rfl
  · simp only [List.nil_append, List.cons_append, parseIntJS, List.dropWhile_cons,
      hws, Bool.false_eq_true, if_false, List.headD_cons]
    rw [if_neg hsign]
    simp only [if_neg hx]
    rw [if_pos hhd, hval, decide_eq_false hnd]
    simp only [Bool.false_eq_true, if_false]
    rw [if_neg (by decide : ¬ (([] : List Char) = ['-']))]
    rfl
  · simp only [List.nil_append, List.cons_append, parseIntJS, List.dropWhile_cons,
      (by decide : isWS '+' = false), Bool.false_eq_true, if_false, List.headD_cons,
      List.tail_cons, if_true,
      if_pos (Or.inr trivial : ('+' : Char) = '-' ∨ True),
      (by decide : (decide (('+' : Char) = '-')) = false),
      eq_false (by decide : ¬ ((['+'] : List Char) = ['-'])),
      if_neg hx, if_pos hhd, hval]
    rfl
  · simp only [List.nil_append, List.cons_append, parseIntJS, List.dropWhile_cons,
      (by decide : isWS '-' = false), Bool.false_eq_true, if_false, List.headD_cons,
      List.tail_cons, if_true, decide_True,
      if_pos (Or.inl trivial : True ∨ ('-' : Char) = '+'),
      if_neg hx, if_pos hhd, hval]
    rfl

theorem parseIntJS_decimal_lead_witness :
    parseIntJS (([] : List Char) ++ (['1', '2'] ++ ['a', 'b', 'c'])) =
      some (if ([] : List Char) = ['-'] then -(decimalValue ['1', '2'] : Int)
        else (decimalValue ['1', '2'] : Int)) ∧
    (parseResponse (("SAFE|12abc|x").data)).scamPercentage = 12 :=
  parseIntJS_decimal_lead [] ['1', '2'] ['a', 'b', 'c'] (Or.inl rfl)
    (by decide) (by decide) (by decide) (by decide)

end Suraksha
